import Mathlib

/-!
Verification development for the content-generator repository.

Shallow embedding conventions:
* Python strings are `List Char` (`PyStr`); `pys` injects Lean string literals.
* Python floats are modelled as `ℚ` (all scores in the code are small decimals).
* A call to the LLM inference client is modelled by an oracle value of type
  `Except PyStr PyStr`: `.ok response` for a successful generation,
  `.error msg` for a raised exception.  All theorems quantify over the oracle.
* The TF-IDF vectorizer / cosine similarity of sklearn is external library code;
  `search` is parametrised by the similarity function `sim : PyStr → PyStr → ℚ`
  it induces, and cosine facts (`sim q q = 1`, `sim ≤ 1`) appear as hypotheses.
-/

namespace ContentGen

/-! ## Python string primitives (model of the str operations used by the code) -/

abbrev PyStr := List Char

def pys (s : String) : PyStr := s.toList

/-- Python `str` whitespace (ASCII subset, which is all the code produces). -/
def pyIsSpace (c : Char) : Bool :=
  c = ' ' || c = '\t' || c = '\n' || c = '\r' || c = '\x0b' || c = '\x0c'

/-- Python `str.strip()`. -/
def pyStrip (s : PyStr) : PyStr :=
  ((s.dropWhile pyIsSpace).reverse.dropWhile pyIsSpace).reverse

def splitOnAux (sep : Char) : PyStr → PyStr → List PyStr
  | [], acc => [acc.reverse]
  | c :: rest, acc =>
    if c = sep then acc.reverse :: splitOnAux sep rest []
    else splitOnAux sep rest (c :: acc)

/-- Python `str.split(sep)` for a one-character separator (keeps empty pieces). -/
def pySplitOn (sep : Char) (s : PyStr) : List PyStr := splitOnAux sep s []

def splitWsAux : PyStr → PyStr → List PyStr
  | [], acc => if acc = [] then [] else [acc.reverse]
  | c :: rest, acc =>
    if pyIsSpace c then
      (if acc = [] then splitWsAux rest [] else acc.reverse :: splitWsAux rest [])
    else splitWsAux rest (c :: acc)

/-- Python `str.split()` with no argument (splits on whitespace runs, drops empties). -/
def pySplitWs (s : PyStr) : List PyStr := splitWsAux s []

/-- Python `len(s.split())`, the word count used throughout the code. -/
def wordCount (s : PyStr) : Nat := (pySplitWs s).length

/-- Python `str.upper()` (ASCII; the scanned needles are ASCII). -/
def pyUpper (s : PyStr) : PyStr := s.map Char.toUpper

/-- Python `str.lower()` (ASCII). -/
def pyLower (s : PyStr) : PyStr := s.map Char.toLower

/-- Python `s.startswith(p)`: `pyStartsWith p s`. -/
def pyStartsWith : PyStr → PyStr → Bool
  | [], _ => true
  | _ :: _, [] => false
  | a :: p, b :: s => a = b && pyStartsWith p s

/-- Python `needle in hay` (contiguous substring test). -/
def pyContains (needle : PyStr) : PyStr → Bool
  | [] => needle.isEmpty
  | c :: rest => pyStartsWith needle (c :: rest) || pyContains needle rest

/-- Python `s.replace(old, new)`: non-overlapping, left to right. -/
def pyReplace (old new : PyStr) : PyStr → PyStr
  | [] => []
  | c :: rest =>
    if old ≠ [] ∧ pyStartsWith old (c :: rest) then
      new ++ pyReplace old new (rest.drop (old.length - 1))
    else
      c :: pyReplace old new rest
termination_by s => s.length
decreasing_by
  · simp only [List.length_cons, List.length_drop]
    omega
  · simp only [List.length_cons]
    omega

def digitVal (c : Char) : Nat := c.toNat - '0'.toNat

def digitsVal (ds : PyStr) : Nat := ds.foldl (fun acc c => acc * 10 + digitVal c) 0

/-- Model of Python `float(s)` on plain decimal literals: optional sign, digits,
optional fractional part.  (Exotic inputs such as exponents, `inf`, `nan` or
underscores never occur in this code's scores and are not modelled.)
Returns `none` where `float()` raises `ValueError`. -/
def parseFloat (s : PyStr) : Option ℚ :=
  let t := pyStrip s
  let signBody : ℚ × PyStr :=
    match t with
    | '-' :: r => (-1, r)
    | '+' :: r => (1, r)
    | r => (1, r)
  let sign := signBody.1
  let body := signBody.2
  match pySplitOn '.' body with
  | [intPart] =>
    if intPart ≠ [] ∧ intPart.all Char.isDigit then
      some (sign * (digitsVal intPart : ℚ))
    else none
  | [intPart, fracPart] =>
    if (intPart ≠ [] ∨ fracPart ≠ []) ∧ intPart.all Char.isDigit ∧ fracPart.all Char.isDigit then
      some (sign * ((digitsVal intPart : ℚ) + (digitsVal fracPart : ℚ) / (10 ^ fracPart.length)))
    else none
  | _ => none

/-- Decimal rendering of a natural, as Python `f"{n}"`. -/
def natDigits (n : Nat) : PyStr := Nat.toDigits 10 n

/-! ## Reviewer agent (src/src/agents/reviewer_agent.py) -/

/-- The `quality_assessment` dict produced by `ReviewerAgent._parse_review_feedback`. -/
structure QualityAssessment where
  overall_score : ℚ
  suggestions : List PyStr
  needs_revision : Bool
deriving DecidableEq

/-- The suggestion-collecting loop of `_parse_review_feedback`: walks the lines,
tracking whether an "AREAS FOR IMPROVEMENT:" or "RECOMMENDED CHANGES:" heading
was seen last, and collects bullet lines inside those sections.  The second
bullet marker `"â€¢"` is the mojibake three-character literal from the source. -/
def collectSuggestions : List PyStr → Bool → Bool → List PyStr
  | [], _, _ => []
  | l :: rest, inImp, inRec =>
    let line := pyStrip l
    if pyContains (pys "AREAS FOR IMPROVEMENT:") (pyUpper line) then
      collectSuggestions rest true false
    else if pyContains (pys "RECOMMENDED CHANGES:") (pyUpper line) then
      collectSuggestions rest false true
    else if pyStartsWith (pys "-") line || pyStartsWith (pys "â€¢") line then
      if inImp || inRec then pyStrip (line.drop 1) :: collectSuggestions rest inImp inRec
      else collectSuggestions rest inImp inRec
    else collectSuggestions rest inImp inRec

/-- The score-line scan of `_parse_review_feedback`: the first line containing
"OVERALL SCORE:" case-insensitively (the loop `break`s after it). -/
def findScoreLine (lines : List PyStr) : Option PyStr :=
  lines.find? (fun l => pyContains (pys "OVERALL SCORE:") (pyUpper l))

/-- `ReviewerAgent._parse_review_feedback`.  From the first "OVERALL SCORE:"
line it takes `line.split(":")[-1].strip()`; only if that segment contains "/"
does it call `float(segment.split("/")[0])`.  A `float()` failure is the one
raise point in the `try` block and lands in the `except` fallback.  In the
normal return, `overall_score or 7.0` maps both `None` and `0.0` to `7.0`. -/
def parse_review_feedback (feedback : PyStr) : QualityAssessment :=
  let lines := pySplitOn '\n' feedback
  let attempt : Except Unit (Option ℚ) :=
    match findScoreLine lines with
    | none => .ok none
    | some l =>
      let score_part := pyStrip ((pySplitOn ':' l).getLastD [])
      if score_part.contains '/' then
        match parseFloat ((pySplitOn '/' score_part).headD []) with
        | some q => .ok (some q)
        | none => .error ()
      else .ok none
  match attempt with
  | .error _ =>
    { overall_score := 7
      suggestions := [pys "Review parsing failed - manual review recommended"]
      needs_revision := false }
  | .ok oscore =>
    let score : ℚ :=
      match oscore with
      | some q => if q = 0 then 7 else q
      | none => 7
    { overall_score := score
      suggestions := collectSuggestions lines false false
      needs_revision := decide (score < 7) }

/-- The `ReviewResult` dict of `ReviewerAgent.process` (the static
`review_metadata` block is omitted; `content_metadata` is passed through). -/
structure ReviewResult where
  review_feedback : PyStr
  quality_assessment : QualityAssessment
deriving DecidableEq

/-- `ReviewerAgent.process`: raises on empty article content, otherwise sends
the rubric prompt to the model (oracle `gen`) and parses the feedback.
A model failure propagates (`generate_response` re-raises). -/
def reviewer_process (gen : Except PyStr PyStr) (article_content : PyStr) :
    Except PyStr ReviewResult :=
  if article_content = [] then .error (pys "Article content is required for review")
  else
    match gen with
    | .error e => .error e
    | .ok feedback => .ok ⟨feedback, parse_review_feedback feedback⟩

/-! ## Rewriter agent (src/src/agents/rewriter_agent.py) -/

/-- `round(x, 1)` on an exact rational (Python's float round is half-to-even on
binary floats; the difference can only show at exact half-multiples of 0.1 and
no claim depends on these fields). -/
def round1 (q : ℚ) : ℚ := (round (q * 10) : ℤ) / 10

/-- The fixed business-terminology lexicon of `_calculate_improvements`. -/
def businessTerms : List PyStr :=
  [pys "strategy", pys "innovation", pys "transformation", pys "efficiency",
   pys "optimization", pys "competitive advantage", pys "roi", pys "digital",
   pys "technology", pys "future", pys "opportunity", pys "growth",
   pys "value", pys "solution", pys "insight"]

/-- `sum(1 for term in business_terms if term in text.lower())`. -/
def businessTermCount (s : PyStr) : Nat :=
  (businessTerms.filter (fun t => pyContains t (pyLower s))).length

/-- `len([s for s in text.split('.') if s.strip()])`. -/
def sentenceCountDot (s : PyStr) : Nat :=
  ((pySplitOn '.' s).filter (fun seg => pyStrip seg ≠ [])).length

/-- `RewriterAgent._calculate_improvements`. -/
structure ImprovementMetrics where
  word_count_change : ℤ
  sentence_count_change : ℤ
  avg_sentence_length_original : ℚ
  avg_sentence_length_rewritten : ℚ
  business_terms_original : ℕ
  business_terms_rewritten : ℕ
  business_terms_improvement : ℤ
  improvements_count : ℕ
  quality_enhancement : PyStr
deriving DecidableEq

def calculate_improvements (original rewritten : PyStr) : ImprovementMetrics :=
  let ow := wordCount original
  let rw := wordCount rewritten
  let os := sentenceCountDot original
  let rs := sentenceCountDot rewritten
  { word_count_change := (rw : ℤ) - ow
    sentence_count_change := (rs : ℤ) - os
    avg_sentence_length_original := round1 ((ow : ℚ) / max os 1)
    avg_sentence_length_rewritten := round1 ((rw : ℚ) / max rs 1)
    business_terms_original := businessTermCount original
    business_terms_rewritten := businessTermCount rewritten
    business_terms_improvement := (businessTermCount rewritten : ℤ) - businessTermCount original
    improvements_count :=
      (max 0 (((businessTermCount rewritten : ℤ) - businessTermCount original)
        + ((max 0 ((os : ℤ) - rs)).toNat / 2))).toNat
    quality_enhancement :=
      if (rw : ℚ) > (ow : ℚ) * 11 / 10 then pys "Significant" else pys "Moderate" }

/-- One line of `_parse_rewriting_response`'s meta-commentary filter (applied to
the stripped line). -/
def metaCommentLine (line : PyStr) : Bool :=
  pyStartsWith (pys "Here is") line || pyStartsWith (pys "Here's") line ||
  pyStartsWith (pys "I have") line || pyStartsWith (pys "I've") line ||
  pyStartsWith (pys "The rewritten") line || pyStartsWith (pys "This rewritten") line ||
  pyContains (pys "rewritten") ((pyLower line).take 50) ||
  pyStartsWith (pys "Note:") line || pyStartsWith (pys "Please") line ||
  pyStartsWith (pys "Remember") line

/-- `RewriterAgent._parse_rewriting_response`: strip, drop meta-commentary and
empty lines, re-join with blank lines; fall back to the stripped response when
nothing survives. -/
def parse_rewriting_response (response : PyStr) : PyStr :=
  let content := pyStrip response
  let cleaned := ((pySplitOn '\n' content).map pyStrip).filter
    (fun line => ¬ metaCommentLine line ∧ line ≠ [])
  if cleaned = [] then content else List.intercalate (pys "\n\n") cleaned

/-- The `improvement_metrics` value of a `RewriteResult`: the computed dict on
success, or `{"error": str(e)}` on the exception path. -/
inductive MetricsDict where
  | computed (m : ImprovementMetrics)
  | errored (msg : PyStr)
deriving DecidableEq

/-- The dict returned by `RewriterAgent.rewrite_content`. -/
structure RewriteResult where
  rewritten_content : PyStr
  original_content : PyStr
  improvement_metrics : MetricsDict
  rewriting_applied : Bool
  target_quality_score : ℚ
deriving DecidableEq

/-- `RewriterAgent.rewrite_content` (lines 25-89).  It builds the rewriting
prompt from content/metadata/feedback/style examples and calls the model; the
oracle `gen` is that call's outcome (the prompt text only feeds the oracle).
Note the method takes no quality score and has no short-circuit: the model is
consulted on every call.  An exception from the model call is caught and the
fallback dict returned. -/
def rewrite_content (gen : Except PyStr PyStr) (content : PyStr) : RewriteResult :=
  match gen with
  | .ok response =>
    let rewritten := parse_rewriting_response response
    { rewritten_content := rewritten
      original_content := content
      improvement_metrics := .computed (calculate_improvements content rewritten)
      rewriting_applied := true
      target_quality_score := 10 }
  | .error e =>
    { rewritten_content := content
      original_content := content
      improvement_metrics := .errored e
      rewriting_applied := false
      target_quality_score := 8 }

/-! ## Writer agent (src/src/agents/writer_agent.py) -/

/-- The `content_metadata` dict built by `WriterAgent.process`. -/
structure ContentMetadata where
  topic : PyStr
  category : PyStr
  industry : PyStr
  target_audience : PyStr
  seo_keywords : List PyStr
  estimated_word_count : ℕ
  content_length : PyStr
deriving DecidableEq

structure WritingResult where
  article_content : PyStr
  content_metadata : ContentMetadata
deriving DecidableEq

/-- `WriterAgent.process`: raises on empty research insights, otherwise sends
the writing prompt to the model and returns its output as `article_content`
verbatim — there is no post-processing of the model text in this method. -/
def writer_process (gen : Except PyStr PyStr) (research_insights : PyStr)
    (topic category industry target_audience : PyStr) (seo_keywords : List PyStr)
    (content_length : PyStr) : Except PyStr WritingResult :=
  if research_insights = [] then .error (pys "Research insights are required for writing")
  else
    match gen with
    | .error e => .error e
    | .ok article_content =>
      .ok ⟨article_content,
        ⟨topic, category, industry, target_audience, seo_keywords,
         wordCount article_content, content_length⟩⟩

/-! ## Coordinator (src/src/agents/coordinator.py) -/

structure GenerationRequest where
  topic : PyStr
  category : PyStr
  industry : PyStr
  target_audience : PyStr
  seo_keywords : List PyStr
  content_length : PyStr
deriving DecidableEq

/-- The locally synthesized research stub of `generate_content` (step 1:
research is short-circuited, no model call). -/
def research_insights_stub (req : GenerationRequest) : PyStr :=
  pys "Content topic: " ++ req.topic ++ pys ". Category: " ++ req.category ++
  pys ". Industry: " ++ req.industry ++ pys "."

/-- The dict returned by `ContentGenerationCoordinator._execute_rewriting`:
the rewritten article plus `content_metadata` augmented with
`rewriting_applied`, `target_quality_score` and `improvement_metrics`
(the augmentation fields are carried separately here), and the raw
`rewriting_data`. -/
structure RewritingStage where
  article_content : PyStr
  content_metadata : ContentMetadata
  rewriting_applied : Bool
  target_quality_score : ℚ
  rewriting_data : RewriteResult
deriving DecidableEq

/-- `ContentGenerationCoordinator._execute_rewriting`: extracts the article and
the review feedback (feedback feeds only the rewriting prompt, i.e. the oracle)
and calls `rewrite_content` unconditionally — the reviewer's score is never
consulted. -/
def execute_rewriting (genRw : Except PyStr PyStr) (writing : WritingResult)
    (_review : ReviewResult) : RewritingStage :=
  let content := writing.article_content
  let rw := rewrite_content genRw content
  { article_content := rw.rewritten_content
    content_metadata := writing.content_metadata
    rewriting_applied := rw.rewriting_applied
    target_quality_score := rw.target_quality_score
    rewriting_data := rw }

/-- The final payload assembled by `generate_content` (workflow/generation
metadata flattened into fields; the constant `agents_used` list and the Excel
export side effect are omitted). -/
structure FinalResult where
  final_content : PyStr
  content_metadata : ContentMetadata
  quality_score : ℚ
  research_insights : PyStr
  review_suggestions : List PyStr
  rewriting_improvements : MetricsDict
  workflow_completed : Bool
  refinement_applied : Bool
  rewriting_applied : Bool
  target_quality_achieved : Bool
deriving DecidableEq

/-- `ContentGenerationCoordinator.generate_content`: research stub → write →
review → rewrite → assemble.  `quality_score` is
`target_quality if rewriting_applied else 8.5` where `target_quality` is the
rewrite stage's `target_quality_score`.  Unhandled exceptions in the writing or
review stage propagate (`Except.error`). -/
def generate_content (genW genRev genRw : Except PyStr PyStr)
    (req : GenerationRequest) : Except PyStr FinalResult :=
  match writer_process genW (research_insights_stub req) req.topic req.category
      req.industry req.target_audience req.seo_keywords req.content_length with
  | .error e => .error e
  | .ok writing =>
    match reviewer_process genRev writing.article_content with
    | .error e => .error e
    | .ok review =>
      let final := execute_rewriting genRw writing review
      .ok { final_content := final.article_content
            content_metadata := final.content_metadata
            quality_score :=
              if final.rewriting_applied then final.target_quality_score else 17/2
            research_insights := research_insights_stub req
            review_suggestions := review.quality_assessment.suggestions
            rewriting_improvements := final.rewriting_data.improvement_metrics
            workflow_completed := true
            refinement_applied := false
            rewriting_applied := final.rewriting_applied
            target_quality_achieved := final.rewriting_applied }

/-! ## Standalone multi-agent pipeline (src/app.py, MultiAgentContentGenerator) -/

/-- `MultiAgentContentGenerator._create_structured_article`: the deterministic
fallback article template (f-string transcribed in full; the `category`
parameter is accepted but unused, as in the source). -/
def create_structured_article (topic _category industry : PyStr) : PyStr :=
  pys "# " ++ topic ++
  pys "\n\n## Executive Summary\n\n" ++ topic ++
  pys " represents a critical strategic opportunity for organizations in the " ++
  (if industry ≠ pys "Select industry..." then pyLower industry else pys "business") ++
  pys " sector. This analysis explores key considerations, implementation strategies, and actionable recommendations for business leaders navigating this transformation.\n\n## Current Market Context\n\nToday's competitive landscape demands that organizations stay ahead of emerging trends. " ++
  topic ++
  pys " has become increasingly important as companies seek to:\n\n- Improve operational efficiency and productivity\n- Enhance customer experience and satisfaction\n- Drive sustainable growth and innovation\n- Maintain competitive advantage in the market\n\n## Strategic Considerations\n\n### Key Benefits\n- **Operational Excellence**: Streamlined processes and improved productivity\n- **Market Positioning**: Enhanced competitive differentiation\n- **Risk Mitigation**: Proactive approach to industry challenges\n- **Innovation Catalyst**: Foundation for future growth initiatives\n\n### Implementation Challenges\n- Resource allocation and budget considerations\n- Change management and organizational readiness\n- Technology integration requirements\n- Talent acquisition and skill development\n\n## Recommendations for Business Leaders\n\n1. **Assess Current State**: Conduct comprehensive evaluation of existing capabilities\n2. **Develop Strategic Roadmap**: Create phased implementation plan with clear milestones\n3. **Invest in People**: Prioritize training and development for key stakeholders\n4. **Monitor Progress**: Establish KPIs and regular review processes\n5. **Stay Agile**: Maintain flexibility to adapt to changing conditions\n\n## Implementation Strategy\n\n### Phase 1: Foundation Building\n- Stakeholder alignment and buy-in\n- Resource planning and allocation\n- Initial capability assessment\n\n### Phase 2: Pilot Programs\n- Small-scale implementation\n- Testing and refinement\n- Success metrics validation\n\n### Phase 3: Full Deployment\n- Organization-wide rollout\n- Change management support\n- Continuous improvement processes\n\n## Conclusion\n\n" ++
  topic ++
  pys " represents both an opportunity and a necessity for modern businesses. Organizations that take a strategic, well-planned approach will be best positioned to realize the benefits while minimizing risks.\n\nThe key to success lies in understanding your organization's unique context, developing a clear implementation strategy, and maintaining focus on measurable business outcomes.\n\n## Next Steps\n\nBusiness leaders should begin by:\n- Conducting a comprehensive assessment of current capabilities\n- Engaging with key stakeholders to build consensus\n- Developing a detailed implementation roadmap\n- Identifying quick wins to build momentum\n\n*For specific guidance tailored to your organization, consider engaging with experienced consultants who can provide customized recommendations and support throughout the transformation journey.*"

/-- `MultiAgentContentGenerator._enhance_content`: ensure a leading heading,
collapse triple blank lines, strip, and append a generic conclusion when none
is present and the content exceeds 100 words. -/
def enhance_content (content topic : PyStr) : PyStr :=
  let c1 := if pyStartsWith (pys "#") content then content
            else pys "# " ++ topic ++ pys "\n\n" ++ content
  let c2 := pyReplace (pys "\n\n\n") (pys "\n\n") c1
  let c3 := pyStrip c2
  if ¬ pyContains (pys "conclusion") (pyLower c3) ∧ wordCount c3 > 100 then
    c3 ++ pys "\n\n## Conclusion\n\n" ++ topic ++
    pys " represents a significant opportunity for business transformation. Organizations that approach this strategically, with proper planning and execution, will be well-positioned for future success in an increasingly competitive marketplace."
  else c3

/-- The per-stage dict of `app.py`'s `_writer_agent` (word-count metadata and
request echo fields flattened). -/
structure AppWritingResult where
  article_content : PyStr
  topic : PyStr
  category : PyStr
  industry : PyStr
  target_audience : PyStr
  estimated_word_count : ℕ
  content_length : PyStr
deriving DecidableEq

/-- `MultiAgentContentGenerator._writer_agent`: the oracle `gen` is the model
call's outcome, its payload being the generated continuation after the prompt
is removed (`generated_text.replace(writing_prompt, "")`).  The model output is
post-processed: if the stripped text does not start with "#", a heading derived
from the topic is prepended.  On an exception the structured template article
is returned instead. -/
def app_writer_agent (gen : Except PyStr PyStr)
    (topic category industry target_audience content_length : PyStr) : AppWritingResult :=
  match gen with
  | .ok generated =>
    let article0 := pyStrip generated
    let article :=
      if pyStartsWith (pys "#") article0 then article0
      else pys "# " ++ topic ++ pys "\n\n" ++ article0
    ⟨article, topic, category, industry, target_audience, wordCount article, content_length⟩
  | .error _ =>
    let article := create_structured_article topic category industry
    ⟨article, topic, category, industry, target_audience, wordCount article, content_length⟩

/-- The dict returned by `app.py`'s `_rewriter_agent` (the wall-clock
`total_time` field is not modelled). -/
structure AppRewriteResult where
  content : PyStr
  quality_score : ℚ
  rewriting_applied : Bool
  improvements_made : ℕ
deriving DecidableEq

/-- `MultiAgentContentGenerator._rewriter_agent` (app.py lines 357-428):
`quality_score` is the reviewer-stage score (`review_result["quality_assessment"]["score"]`).
If it is ≥ 9.5 the method short-circuits without touching the model and returns
the original content with `quality_score = 10.0` and `rewriting_applied = False`.
Otherwise the model is consulted; its stripped output is accepted if longer
than 100 words and different from the original, else the deterministic
enhancement is applied; both the success and the exception path report
`rewriting_applied = True` and `quality_score = 10.0`. -/
def app_rewriter_agent (gen : Except PyStr PyStr) (original_content : PyStr)
    (quality_score : ℚ) (topic : PyStr) : AppRewriteResult :=
  if 19/2 ≤ quality_score then
    { content := original_content, quality_score := 10
      rewriting_applied := false, improvements_made := 0 }
  else
    match gen with
    | .ok generated =>
      let rewritten := pyStrip generated
      if wordCount rewritten > 100 ∧ rewritten ≠ original_content then
        { content := rewritten, quality_score := 10
          rewriting_applied := true, improvements_made := 3 }
      else
        { content := enhance_content original_content topic, quality_score := 10
          rewriting_applied := true, improvements_made := 1 }
    | .error _ =>
      { content := enhance_content original_content topic, quality_score := 10
        rewriting_applied := true, improvements_made := 1 }

/-! ## Retrieval store (src/src/rag/simple_vector_store.py, SimpleVectorStore)

The SQLite document table is a list of rows in rowid order; metadata is the
JSON dict, modelled as an association list with unique keys.  The sklearn
TF-IDF vectorizer and `cosine_similarity` are external library calls: `search`
is parametrised by the similarity function `sim` they induce for the current
corpus (`similarities[i] = sim query documents[i].content`). -/

/-- A JSON metadata value (the code stores strings and numbers). -/
inductive MVal where
  | s (v : PyStr)
  | n (v : ℚ)
deriving DecidableEq

abbrev Metadata := List (PyStr × MVal)

/-- One row of the `documents` table. -/
structure Doc where
  id : PyStr
  content : PyStr
  metadata : Metadata
deriving DecidableEq

/-- The store state: the document table in rowid (iteration) order. -/
structure Store where
  docs : List Doc
deriving DecidableEq

/-- `SimpleVectorStore._matches_filter`: every filter key must be present in
the metadata with an equal value. -/
def matches_filter (md filt : Metadata) : Bool :=
  filt.all (fun kv => md.lookup kv.1 = some kv.2)

/-- `SimpleVectorStore.get_document_count`. -/
def get_document_count (s : Store) : ℕ := s.docs.length

/-- The auto-generated id `f"doc_{count + 1}"` of `add_document`. -/
def autoId (s : Store) : PyStr := pys "doc_" ++ natDigits (get_document_count s + 1)

/-- `SimpleVectorStore.add_document`: `INSERT OR REPLACE` — on an id conflict
SQLite deletes the old row and appends the fresh one (new rowid); the index is
then rebuilt from the table.  Returns the new state and the id used. -/
def add_document (s : Store) (content : PyStr) (metadata : Metadata)
    (doc_id : Option PyStr) : Store × PyStr :=
  let id := doc_id.getD (autoId s)
  (⟨s.docs.filter (fun d => d.id ≠ id) ++ [⟨id, content, metadata⟩]⟩, id)

/-- The similarity of index `i`, `similarities[i]` (0 out of range). -/
def simAt (sims : List ℚ) (i : ℕ) : ℚ := sims.getD i 0

/-- One insertion step of the stable ascending index sort: place `i` before the
first already-present index with a similarity ≥ its own. -/
def insertIdx (sims : List ℚ) (i : ℕ) : List ℕ → List ℕ
  | [] => [i]
  | j :: rest =>
    if simAt sims i ≤ simAt sims j then i :: j :: rest
    else j :: insertIdx sims i rest

/-- Stable insertion sort of a list of indices by ascending similarity. -/
def sortIdx (sims : List ℚ) : List ℕ → List ℕ
  | [] => []
  | i :: rest => insertIdx sims i (sortIdx sims rest)

/-- `np.argsort(similarities)`: the indices `0..len-1` sorted by ascending
similarity; on these small arrays numpy's sort orders ties by ascending
index (stable), which the insertion sort reproduces. -/
def argsortAsc (sims : List ℚ) : List ℕ := sortIdx sims (List.range sims.length)

/-- The index pipeline of `search`:
`np.argsort(similarities)[::-1][:n_results]` followed by the
`similarities[idx] > 0` guard of the result loop. -/
def searchIdx (sims : List ℚ) (n_results : ℕ) : List ℕ :=
  (((argsortAsc sims).reverse).take n_results).filter (fun idx => decide (0 < simAt sims idx))

/-- The document list `search` scores: all documents, or those matching the
filter (an empty filter dict is falsy in Python and means no filtering). -/
def searchDocs (s : Store) (filter_metadata : Metadata) : List Doc :=
  if filter_metadata = [] then s.docs
  else s.docs.filter (fun d => matches_filter d.metadata filter_metadata)

def docAt (docs : List Doc) (i : ℕ) : Doc := docs.getD i ⟨[], [], []⟩

/-- Ascending similarity with ties in ascending index order: the order
`argsortAsc` realises. -/
def ordA (sims : List ℚ) (i j : ℕ) : Prop :=
  simAt sims i < simAt sims j ∨ (simAt sims i = simAt sims j ∧ i < j)

/-- Descending similarity with ties in descending index order: the order of
`np.argsort(...)[::-1]` — note ties come out in reverse corpus order. -/
def ordD (sims : List ℚ) (i j : ℕ) : Prop :=
  simAt sims j < simAt sims i ∨ (simAt sims i = simAt sims j ∧ j < i)

/-- One entry of `search`'s result list. -/
structure SearchResult where
  content : PyStr
  metadata : Metadata
  distance : ℚ
  id : PyStr
deriving DecidableEq

/-- `SimpleVectorStore.search`: filter the corpus, score it with the
vectorizer-induced similarity `sim`, rank by descending similarity, keep the
top `n_results` with strictly positive similarity, and report
`distance = 1 - similarity`.  An empty corpus or empty filter result returns
`[]` (as does the `vectorizer is None` guard for an empty store). -/
def search (sim : PyStr → PyStr → ℚ) (s : Store) (query : PyStr) (n_results : ℕ)
    (filter_metadata : Metadata) : List SearchResult :=
  let documents := searchDocs s filter_metadata
  if documents = [] then []
  else
    let sims := documents.map (fun d => sim query d.content)
    (searchIdx sims n_results).map (fun idx =>
      { content := (docAt documents idx).content
        metadata := (docAt documents idx).metadata
        distance := 1 - simAt sims idx
        id := (docAt documents idx).id })

/-! ## Content validator (src/src/core/data_pipeline.py, ContentValidator) -/

/-- Model of `re.search(r'\[.*?\]', content)`: a `'['` with a later `']'` on
the same line (`.` does not match a newline). -/
def hasBracketPair : PyStr → Bool
  | [] => false
  | c :: rest =>
    (c = '[' && (rest.takeWhile (fun d => d ≠ '\n')).contains ']') || hasBracketPair rest

def isSentSep (c : Char) : Bool := c = '.' || c = '!' || c = '?'

def splitRunsAux : PyStr → PyStr → List PyStr
  | [], acc => [acc.reverse]
  | c :: rest, acc =>
    if isSentSep c then acc.reverse :: splitRunsAux (rest.dropWhile isSentSep) []
    else splitRunsAux rest (c :: acc)
termination_by s => s.length
decreasing_by
  · have := (List.dropWhile_sublist (l := rest) isSentSep).length_le
    simp only [List.length_cons]
    omega
  · simp only [List.length_cons]
    omega

/-- `re.split(r'[.!?]+', content)`: pieces between maximal runs of sentence
punctuation (always at least one piece). -/
def splitSentences (s : PyStr) : List PyStr := splitRunsAux s []

def round2 (q : ℚ) : ℚ := (round (q * 100) : ℤ) / 100

def tooShortMsg (wc : ℕ) : PyStr :=
  pys "Content too short: " ++ natDigits wc ++ pys " words (minimum: 100)"

def tooLongMsg (wc : ℕ) : PyStr :=
  pys "Content too long: " ++ natDigits wc ++ pys " words (maximum: 3000)"

/-- The dict returned by `ContentValidator.validate_content` (metrics
flattened; `avg_words_per_sentence` is always set since `re.split` yields at
least one piece, so `sentences > 0` always holds). -/
structure ValidationResult where
  is_valid : Bool
  issues : List PyStr
  warnings : List PyStr
  word_count : ℕ
  avg_words_per_sentence : ℚ
deriving DecidableEq

/-- `ContentValidator.validate_content` with
`min_word_count = 100`, `max_word_count = 3000`.  Only the three issue checks
flip `is_valid`; placeholder, SEO and sentence-length findings are warnings.
`seo_keywords` is `metadata.get("seo_keywords", [])`. -/
def validate_content (content : PyStr) (seo_keywords : List PyStr) : ValidationResult :=
  let word_count := wordCount content
  let issues :=
    (if word_count < 100 then [tooShortMsg word_count] else []) ++
    (if word_count > 3000 then [tooLongMsg word_count] else []) ++
    (if pyStrip content = [] then [pys "Content is empty"] else [])
  let placeholderWarnings :=
    (if hasBracketPair content then
      [pys "Possible placeholder content found: \\[.*?\\]"] else []) ++
    (if pyContains (pys "todo") (pyLower content) then
      [pys "Possible placeholder content found: TODO"] else []) ++
    (if pyContains (pys "placeholder") (pyLower content) then
      [pys "Possible placeholder content found: PLACEHOLDER"] else []) ++
    (if pyContains (pys "lorem ipsum") (pyLower content) then
      [pys "Possible placeholder content found: Lorem ipsum"] else [])
  let missing := seo_keywords.filter (fun k => ¬ pyContains (pyLower k) (pyLower content))
  let seoWarnings :=
    if seo_keywords ≠ [] ∧ missing ≠ [] then
      [pys "SEO keywords not found in content: " ++ List.intercalate (pys ", ") missing]
    else []
  let sentences := (splitSentences content).length
  let avg : ℚ := (word_count : ℚ) / sentences
  let lengthWarnings :=
    if 25 < avg then
      [pys "Average sentence length is high, consider breaking up long sentences"]
    else []
  { is_valid := issues.isEmpty
    issues := issues
    warnings := placeholderWarnings ++ seoWarnings ++ lengthWarnings
    word_count := word_count
    avg_words_per_sentence := round2 avg }

/-! ## Refinement comparators taken from the spec's words (not from the code) -/

/-- The text after the first colon of a line (spec side, for comparison with
the code's last-colon split). -/
def afterFirstColon (l : PyStr) : PyStr :=
  List.intercalate [':'] ((pySplitOn ':' l).drop 1)

/-- The maximal decimal-number run starting at the head of `s`. -/
def numRunFrom (s : PyStr) : PyStr :=
  let intPart := s.takeWhile Char.isDigit
  let rest := s.dropWhile Char.isDigit
  match rest with
  | '.' :: r2 => intPart ++ '.' :: r2.takeWhile Char.isDigit
  | _ => intPart

/-- Modelled from the spec's words "take the first numeric token after the
colon as the score": the value of the first decimal number occurring in the
text.  Used only to compare the spec's parsing rule with the code's. -/
def firstNumericTokenVal : PyStr → Option ℚ
  | [] => none
  | c :: rest =>
    if c.isDigit then parseFloat (numRunFrom (c :: rest))
    else firstNumericTokenVal rest

/-! ## Helper lemmas -/

/-- Splitting `n` copies of "word " on whitespace yields `n` words. -/
theorem splitWsAux_word_replicate (n : ℕ) :
    splitWsAux (List.flatten (List.replicate n (pys "word "))) [] =
      List.replicate n (pys "word") := by
  induction n with
  | zero => rfl
  | succ m ih =>
    rw [List.replicate_succ, List.flatten_cons]
    show splitWsAux (pys "word " ++ List.flatten (List.replicate m (pys "word "))) [] = _
    have step : ∀ rest : PyStr, splitWsAux (pys "word " ++ rest) [] =
        pys "word" :: splitWsAux rest [] := by
      intro rest
      simp [pys, splitWsAux, pyIsSpace]
    rw [step, ih, List.replicate_succ]

theorem wordCount_word_replicate (n : ℕ) :
    wordCount (List.flatten (List.replicate n (pys "word "))) = n := by
  unfold wordCount pySplitWs
  rw [splitWsAux_word_replicate]
  exact List.length_replicate n _

/-- In a list of documents with distinct ids, dropping the one row with a
present id shortens the list by exactly one. -/
theorem filter_ne_id_length {l : List Doc} {id : PyStr}
    (hnodup : (l.map Doc.id).Nodup) (hmem : id ∈ l.map Doc.id) :
    (l.filter (fun d => d.id ≠ id)).length + 1 = l.length := by
  induction l with
  | nil => simp at hmem
  | cons d rest ih =>
    simp only [List.map_cons, List.nodup_cons] at hnodup
    rcases hnodup with ⟨hd, hrest⟩
    simp only [List.map_cons, List.mem_cons] at hmem
    rw [List.filter_cons]
    rcases hmem with heq | hmem
    · subst heq
      have hall : rest.filter (fun e => e.id ≠ d.id) = rest := by
        rw [List.filter_eq_self]
        intro e he
        simp only [ne_eq, decide_eq_true_eq]
        intro hc
        exact hd (hc ▸ List.mem_map_of_mem Doc.id he)
      rw [if_neg (by simp), hall, List.length_cons]
    · have hne : (decide (d.id ≠ id)) = true := by
        simp only [ne_eq, decide_eq_true_eq]
        intro hc
        exact hd (hc ▸ hmem)
      rw [hne]
      simp only [if_true, List.length_cons]
      rw [← ih hrest hmem]

/-! ## Claim C1: the ≥ 9.5 short-circuit -/

/-- C1 counterexample: `RewriterAgent.rewrite_content` (reached through the
coordinator's `_execute_rewriting`) has no quality-score short-circuit.  Here
the externally supplied reviewer score is 9.8 ≥ 9.5, yet the model is invoked
and its output is returned: `rewriting_applied = true` and the content is not
the input, contradicting the claim. -/
theorem rewrite_shortcircuit_counterexample :
    (parse_review_feedback (pys "OVERALL SCORE: 9.8/10")).overall_score = 49/5 ∧
    (19/2 : ℚ) ≤ 49/5 ∧
    (execute_rewriting (.ok (pys "Fresh executive insights on market growth."))
        ⟨pys "Original draft article about digital strategy.",
         ⟨pys "T", pys "C", pys "I", pys "A", [], 6, pys "short"⟩⟩
        ⟨pys "OVERALL SCORE: 9.8/10",
         parse_review_feedback (pys "OVERALL SCORE: 9.8/10")⟩).rewriting_applied = true ∧
    (execute_rewriting (.ok (pys "Fresh executive insights on market growth."))
        ⟨pys "Original draft article about digital strategy.",
         ⟨pys "T", pys "C", pys "I", pys "A", [], 6, pys "short"⟩⟩
        ⟨pys "OVERALL SCORE: 9.8/10",
         parse_review_feedback (pys "OVERALL SCORE: 9.8/10")⟩).article_content ≠
      pys "Original draft article about digital strategy." := by
  refine ⟨?_, by norm_num, by decide, by decide⟩
  have key : (parse_review_feedback (pys "OVERALL SCORE: 9.8/10")).overall_score =
      if (1 * ((digitsVal (pys "9") : ℚ) + (digitsVal (pys "8") : ℚ) / 10 ^ (pys "8").length) = 0)
      then 7
      else 1 * ((digitsVal (pys "9") : ℚ) + (digitsVal (pys "8") : ℚ) / 10 ^ (pys "8").length) := rfl
  rw [key, show digitsVal (pys "9") = 9 from by decide,
      show digitsVal (pys "8") = 8 from by decide,
      show (pys "8").length = 1 from by decide]
  rw [if_neg (by norm_num)]
  norm_num

/-- C1 (amended): the ≥ 9.5 short-circuit lives in `app.py`'s
`_rewriter_agent`, not in `RewriterAgent.rewrite_content`.  For any reviewer
score ≥ 9.5 it returns the original content byte-for-byte with
`quality_score = 10.0` and `rewriting_applied = False`, for every model oracle
— i.e. the model is not consulted. -/
theorem app_rewriter_shortcircuit (gen : Except PyStr PyStr)
    (original_content : PyStr) (quality_score : ℚ) (topic : PyStr)
    (h : 19/2 ≤ quality_score) :
    app_rewriter_agent gen original_content quality_score topic =
      ⟨original_content, 10, false, 0⟩ := by
  unfold app_rewriter_agent
  rw [if_pos h]

theorem app_rewriter_shortcircuit_witness :
    app_rewriter_agent (.ok (pys "model output that should be ignored"))
        (pys "already excellent article") (49/5) (pys "T") =
      ⟨pys "already excellent article", 10, false, 0⟩ :=
  app_rewriter_shortcircuit _ _ _ _ (by norm_num)

/-! ## Claim C2: the assembled quality score -/

/-- C2: every completed `generate_content` run reports
`quality_score = 10.0` when the rewrite stage set `rewriting_applied = true`,
and `8.5` otherwise. -/
theorem coordinator_quality_score (genW genRev genRw : Except PyStr PyStr)
    (req : GenerationRequest) (res : FinalResult)
    (h : generate_content genW genRev genRw req = .ok res) :
    res.quality_score = if res.rewriting_applied then 10 else 17/2 := by
  unfold generate_content at h
  cases hw : writer_process genW (research_insights_stub req) req.topic req.category
      req.industry req.target_audience req.seo_keywords req.content_length with
  | error e => rw [hw] at h; cases h
  | ok writing =>
    rw [hw] at h
    dsimp only at h
    cases hr : reviewer_process genRev writing.article_content with
    | error e => rw [hr] at h; cases h
    | ok review =>
      rw [hr] at h
      dsimp only at h
      cases h
      cases genRw with
      | ok response => rfl
      | error e => rfl

theorem coordinator_quality_score_witness :
    ∃ res, generate_content (.ok (pys "Draft body.")) (.ok (pys "OVERALL SCORE: 6/10"))
        (.error (pys "model down"))
        ⟨pys "AI in Retail", pys "AI & Automation", pys "Retail & E-commerce",
         pys "business executives", [], pys "short"⟩ = .ok res ∧
      res.quality_score = if res.rewriting_applied then 10 else 17/2 := by
  refine ⟨_, rfl, ?_⟩
  exact coordinator_quality_score (.ok (pys "Draft body."))
    (.ok (pys "OVERALL SCORE: 6/10")) (.error (pys "model down"))
    ⟨pys "AI in Retail", pys "AI & Automation", pys "Retail & E-commerce",
     pys "business executives", [], pys "short"⟩ _ rfl

/-! ## Claim C6: rewriting failures degrade, never abort -/

/-- C6: an exception in the Rewriter's model call is caught:
`rewrite_content` returns the fallback dict carrying the original content with
`rewriting_applied = false` (and score 8.0), and a pipeline whose writing and
review stages succeeded still completes (`Except.ok`) when the rewriting
oracle fails, its final content being the un-rewritten article. -/
theorem rewrite_failure_fallback :
    (∀ (e content : PyStr),
      (rewrite_content (.error e) content).rewritten_content = content ∧
      (rewrite_content (.error e) content).rewriting_applied = false ∧
      (rewrite_content (.error e) content).target_quality_score = 8) ∧
    (∀ (genW genRev : Except PyStr PyStr) (e : PyStr) (req : GenerationRequest)
      (w : WritingResult) (rv : ReviewResult),
      writer_process genW (research_insights_stub req) req.topic req.category
        req.industry req.target_audience req.seo_keywords req.content_length = .ok w →
      reviewer_process genRev w.article_content = .ok rv →
      ∃ r, generate_content genW genRev (.error e) req = .ok r ∧
        r.final_content = w.article_content ∧ r.rewriting_applied = false) := by
  constructor
  · intro e content
    exact ⟨rfl, rfl, rfl⟩
  · intro genW genRev e req w rv hw hrv
    have hgc : generate_content genW genRev (.error e) req =
        .ok { final_content := w.article_content
              content_metadata := w.content_metadata
              quality_score := 17/2
              research_insights := research_insights_stub req
              review_suggestions := rv.quality_assessment.suggestions
              rewriting_improvements := .errored e
              workflow_completed := true
              refinement_applied := false
              rewriting_applied := false
              target_quality_achieved := false } := by
      unfold generate_content
      rw [hw]
      dsimp only
      rw [hrv]
      rfl
    exact ⟨_, hgc, rfl, rfl⟩

theorem rewrite_failure_fallback_witness :
    (rewrite_content (.error (pys "timeout")) (pys "the draft")).rewritten_content =
      pys "the draft" ∧
    ∃ r, generate_content (.ok (pys "Draft body.")) (.ok (pys "fine"))
        (.error (pys "timeout"))
        ⟨pys "Topic", pys "C", pys "I", pys "A", [], pys "short"⟩ = .ok r ∧
      r.final_content = pys "Draft body." ∧ r.rewriting_applied = false :=
  ⟨(rewrite_failure_fallback.1 (pys "timeout") (pys "the draft")).1,
   rewrite_failure_fallback.2 (.ok (pys "Draft body.")) (.ok (pys "fine"))
     (pys "timeout") ⟨pys "Topic", pys "C", pys "I", pys "A", [], pys "short"⟩
     _ _ rfl rfl⟩

/-! ## Claim C3: the overall-score parsing rule -/

/-- C3 counterexample: on the line "OVERALL SCORE: 9" the first numeric token
after the colon is 9, but `_parse_review_feedback` only parses a score when
the text after the last colon contains a "/" — so it falls back to 7.0,
contradicting the claimed parsing rule. -/
theorem review_parse_counterexample :
    firstNumericTokenVal (afterFirstColon (pys "OVERALL SCORE: 9")) = some 9 ∧
    (parse_review_feedback (pys "OVERALL SCORE: 9")).overall_score = 7 ∧
    (7 : ℚ) ≠ 9 := by
  refine ⟨?_, rfl, by norm_num⟩
  have key : firstNumericTokenVal (afterFirstColon (pys "OVERALL SCORE: 9")) =
      some (1 * (digitsVal (pys "9") : ℚ)) := rfl
  rw [key, show digitsVal (pys "9") = 9 from by decide]
  norm_num

/-- C3 (amended): `_parse_review_feedback` scans lines case-insensitively for
"OVERALL SCORE:", takes the text after the LAST colon of the first such line,
and only when that segment contains "/" parses the part before the first "/"
as a float; the result is the score unless the parse fails or yields 0, and in
every other case (line absent, no "/", parse failure, score 0) the default 7.0
is used.  "OVERALL SCORE: 8.5/10" yields 8.5; input with no such line yields
7.0. -/
theorem review_parse_amended :
    (parse_review_feedback (pys "OVERALL SCORE: 8.5/10")).overall_score = 17/2 ∧
    (∀ feedback, findScoreLine (pySplitOn '\n' feedback) = none →
      (parse_review_feedback feedback).overall_score = 7) ∧
    (∀ feedback l, findScoreLine (pySplitOn '\n' feedback) = some l →
      (pyStrip ((pySplitOn ':' l).getLastD [])).contains '/' = false →
      (parse_review_feedback feedback).overall_score = 7) ∧
    (∀ feedback l q, findScoreLine (pySplitOn '\n' feedback) = some l →
      (pyStrip ((pySplitOn ':' l).getLastD [])).contains '/' = true →
      parseFloat ((pySplitOn '/' (pyStrip ((pySplitOn ':' l).getLastD []))).headD []) = some q →
      q ≠ 0 →
      (parse_review_feedback feedback).overall_score = q) := by
  refine ⟨?_, ?_, ?_, ?_⟩
  · have key : (parse_review_feedback (pys "OVERALL SCORE: 8.5/10")).overall_score =
        if (1 * ((digitsVal (pys "8") : ℚ) + (digitsVal (pys "5") : ℚ) / 10 ^ (pys "5").length) = 0)
        then 7
        else 1 * ((digitsVal (pys "8") : ℚ) + (digitsVal (pys "5") : ℚ) / 10 ^ (pys "5").length) := rfl
    rw [key, show digitsVal (pys "8") = 8 from by decide,
        show digitsVal (pys "5") = 5 from by decide,
        show (pys "5").length = 1 from by decide]
    rw [if_neg (by norm_num)]
    norm_num
  · intro feedback hnone
    simp only [parse_review_feedback, hnone]
  · intro feedback l hfind hslash
    simp only [parse_review_feedback, hfind, hslash]
    simp
  · intro feedback l q hfind hslash hq hq0
    simp only [parse_review_feedback, hfind, hslash, hq]
    simp [hq0]

theorem review_parse_amended_witness :
    (parse_review_feedback (pys "no score in this feedback")).overall_score = 7 ∧
    (parse_review_feedback (pys "OVERALL SCORE: 9")).overall_score = 7 ∧
    (parse_review_feedback (pys "OVERALL SCORE: 8/10")).overall_score =
      1 * (digitsVal (pys "8") : ℚ) :=
  ⟨review_parse_amended.2.1 (pys "no score in this feedback") (by decide),
   review_parse_amended.2.2.1 (pys "OVERALL SCORE: 9") (pys "OVERALL SCORE: 9")
     (by decide) (by decide),
   review_parse_amended.2.2.2 (pys "OVERALL SCORE: 8/10") (pys "OVERALL SCORE: 8/10")
     (1 * (digitsVal (pys "8") : ℚ)) (by decide) (by decide) rfl
     (by rw [show digitsVal (pys "8") = 8 from by decide]; norm_num)⟩

/-! ## Claim C5: the heading guarantee -/

/-- C5 counterexample: `WriterAgent.process` returns the model's output
verbatim as `article_content` — here the model output has no heading and none
is prepended, contradicting the claim for the agents' Writer. -/
theorem writer_heading_counterexample :
    writer_process (.ok (pys "The draft text without any heading."))
        (pys "insights") (pys "AI in Retail") (pys "cat") (pys "ind") (pys "aud")
        [] (pys "short") =
      .ok ⟨pys "The draft text without any heading.",
           ⟨pys "AI in Retail", pys "cat", pys "ind", pys "aud", [], 6, pys "short"⟩⟩ ∧
    pyStartsWith (pys "#") (pys "The draft text without any heading.") = false :=
  ⟨rfl, by decide⟩

/-- C5 (amended): the heading post-processing lives in `app.py`'s
`_writer_agent`: on every oracle outcome its `article_content` begins with a
"#" heading — the model output is kept if it already starts with "#", a
"# topic" heading is prepended otherwise, and the exception-path template
starts with "# topic". -/
theorem app_writer_heading (gen : Except PyStr PyStr)
    (topic category industry target_audience content_length : PyStr) :
    pyStartsWith (pys "#")
      (app_writer_agent gen topic category industry target_audience
        content_length).article_content = true := by
  unfold app_writer_agent
  cases gen with
  | ok g =>
    dsimp only
    by_cases h : pyStartsWith (pys "#") (pyStrip g) = true
    · rw [if_pos h]
      exact h
    · rw [if_neg h]
      rfl
  | error e => rfl

/-! ## Claim C8: validator word-count bounds -/

/-- C8: a 50-word input is invalid with the minimum-word-count issue, a
4000-word input is invalid with the maximum issue, and the empty string
triggers both the minimum-length issue (at 0 words) and the empty-content
issue. -/
theorem validator_bounds (content : PyStr) (seo_keywords : List PyStr) :
    (wordCount content = 50 →
      (validate_content content seo_keywords).is_valid = false ∧
      tooShortMsg 50 ∈ (validate_content content seo_keywords).issues) ∧
    (wordCount content = 4000 →
      (validate_content content seo_keywords).is_valid = false ∧
      tooLongMsg 4000 ∈ (validate_content content seo_keywords).issues) ∧
    (content = [] →
      (validate_content content seo_keywords).is_valid = false ∧
      tooShortMsg 0 ∈ (validate_content content seo_keywords).issues ∧
      pys "Content is empty" ∈ (validate_content content seo_keywords).issues) := by
  refine ⟨?_, ?_, ?_⟩
  · intro h
    constructor
    · simp [validate_content, h]
    · simp [validate_content, h]
  · intro h
    constructor
    · simp [validate_content, h]
    · simp [validate_content, h]
  · intro h
    subst h
    have hiss : (validate_content [] seo_keywords).issues =
        [tooShortMsg 0, pys "Content is empty"] := rfl
    exact ⟨rfl, by rw [hiss]; decide, by rw [hiss]; decide⟩

theorem validator_bounds_witness :
    ((validate_content (List.flatten (List.replicate 50 (pys "word "))) []).is_valid = false ∧
      tooShortMsg 50 ∈ (validate_content (List.flatten (List.replicate 50 (pys "word "))) []).issues) ∧
    ((validate_content (List.flatten (List.replicate 4000 (pys "word "))) []).is_valid = false ∧
      tooLongMsg 4000 ∈ (validate_content (List.flatten (List.replicate 4000 (pys "word "))) []).issues) ∧
    ((validate_content [] []).is_valid = false ∧
      tooShortMsg 0 ∈ (validate_content [] []).issues ∧
      pys "Content is empty" ∈ (validate_content [] []).issues) :=
  ⟨(validator_bounds _ []).1 (by rw [wordCount_word_replicate]),
   (validator_bounds _ []).2.1 (by rw [wordCount_word_replicate]),
   (validator_bounds [] []).2.2 rfl⟩

/-! ## Claim C9: INSERT OR REPLACE and id collisions -/

/-- C9: `add_document` with an already-present `doc_id` does not raise and
does not change the document count; it replaces that id's row (the fresh
content/metadata are the only row with that id afterwards).  Concretely, the
auto-generated id `doc_{count+1}` collides with an existing `doc_2` in a
one-document store and silently overwrites it. -/
theorem add_document_replace :
    (∀ (s : Store) (content : PyStr) (md : Metadata) (id : PyStr),
      (s.docs.map Doc.id).Nodup → id ∈ s.docs.map Doc.id →
      get_document_count (add_document s content md (some id)).1 = get_document_count s ∧
      (add_document s content md (some id)).1.docs.filter (fun d => d.id = id) =
        [⟨id, content, md⟩]) ∧
    (autoId ⟨[⟨pys "doc_2", pys "old content", []⟩]⟩ = pys "doc_2" ∧
      get_document_count (add_document ⟨[⟨pys "doc_2", pys "old content", []⟩]⟩
        (pys "new content") [] none).1 = 1 ∧
      (add_document ⟨[⟨pys "doc_2", pys "old content", []⟩]⟩
        (pys "new content") [] none).1.docs = [⟨pys "doc_2", pys "new content", []⟩]) := by
  constructor
  · intro s content md id hnodup hmem
    constructor
    · show (s.docs.filter (fun (d : Doc) => d.id ≠ id) ++ [(⟨id, content, md⟩ : Doc)]).length =
        s.docs.length
      rw [List.length_append]
      simp only [List.length_singleton]
      exact filter_ne_id_length hnodup hmem
    · show ((s.docs.filter (fun (d : Doc) => d.id ≠ id) ++ [(⟨id, content, md⟩ : Doc)]).filter
          (fun (d : Doc) => d.id = id)) = [(⟨id, content, md⟩ : Doc)]
      rw [List.filter_append]
      have h1 : (s.docs.filter (fun (d : Doc) => d.id ≠ id)).filter
          (fun (d : Doc) => d.id = id) = [] := by
        rw [List.filter_eq_nil_iff]
        intro a ha
        have := List.of_mem_filter ha
        simp only [ne_eq, decide_not, Bool.not_eq_true'] at this ⊢
        simpa using this
      rw [h1]
      simp
  · exact ⟨by decide, by decide, by decide⟩

theorem add_document_replace_witness :
    get_document_count (add_document ⟨[⟨pys "doc_1", pys "alpha", []⟩]⟩
      (pys "beta") [] (some (pys "doc_1"))).1 = 1 ∧
    (add_document ⟨[⟨pys "doc_1", pys "alpha", []⟩]⟩
      (pys "beta") [] (some (pys "doc_1"))).1.docs.filter
        (fun d => d.id = pys "doc_1") = [⟨pys "doc_1", pys "beta", []⟩] :=
  add_document_replace.1 ⟨[⟨pys "doc_1", pys "alpha", []⟩]⟩ (pys "beta") []
    (pys "doc_1") (by decide) (by decide)

/-! ## Sorting lemmas for the search pipeline -/

theorem insertIdx_perm (sims : List ℚ) (i : ℕ) (acc : List ℕ) :
    (insertIdx sims i acc).Perm (i :: acc) := by
  induction acc with
  | nil => exact List.Perm.refl _
  | cons j rest ih =>
    unfold insertIdx
    by_cases h : simAt sims i ≤ simAt sims j
    · rw [if_pos h]
    · rw [if_neg h]
      exact (List.Perm.cons j ih).trans (List.Perm.swap i j rest)

theorem sortIdx_perm (sims : List ℚ) (l : List ℕ) : (sortIdx sims l).Perm l := by
  induction l with
  | nil => exact List.Perm.refl _
  | cons i rest ih =>
    exact (insertIdx_perm sims i (sortIdx sims rest)).trans (List.Perm.cons i ih)

theorem insertIdx_pairwise (sims : List ℚ) (i : ℕ) (acc : List ℕ)
    (hp : acc.Pairwise (ordA sims)) (hlt : ∀ j ∈ acc, i < j) :
    (insertIdx sims i acc).Pairwise (ordA sims) := by
  induction acc with
  | nil => simp [insertIdx, ordA]
  | cons j rest ih =>
    rcases List.pairwise_cons.mp hp with ⟨hj, hrest⟩
    unfold insertIdx
    by_cases h : simAt sims i ≤ simAt sims j
    · rw [if_pos h]
      refine List.pairwise_cons.mpr ⟨?_, hp⟩
      intro x hx
      rcases List.mem_cons.mp hx with rfl | hx'
      · rcases lt_or_eq_of_le h with hlt' | heq
        · exact Or.inl hlt'
        · exact Or.inr ⟨heq, hlt x (List.mem_cons_self x rest)⟩
      · rcases hj x hx' with hl | ⟨he, _⟩
        · exact Or.inl (lt_of_le_of_lt h hl)
        · rcases lt_or_eq_of_le h with hlt' | heq
          · exact Or.inl (he ▸ hlt')
          · exact Or.inr ⟨heq.trans he, hlt x (List.mem_cons_of_mem j hx')⟩
    · rw [if_neg h]
      push_neg at h
      refine List.pairwise_cons.mpr
        ⟨?_, ih hrest (fun x hx => hlt x (List.mem_cons_of_mem j hx))⟩
      intro x hx
      rcases List.mem_cons.mp ((insertIdx_perm sims i rest).mem_iff.mp hx) with rfl | hx'
      · exact Or.inl h
      · exact hj x hx'

theorem sortIdx_pairwise (sims : List ℚ) (l : List ℕ) (hl : l.Pairwise (· < ·)) :
    (sortIdx sims l).Pairwise (ordA sims) := by
  induction l with
  | nil => simp [sortIdx]
  | cons i rest ih =>
    rcases List.pairwise_cons.mp hl with ⟨hi, hrest⟩
    exact insertIdx_pairwise sims i (sortIdx sims rest) (ih hrest)
      (fun j hj => hi j ((sortIdx_perm sims rest).mem_iff.mp hj))

theorem argsortAsc_perm (sims : List ℚ) :
    (argsortAsc sims).Perm (List.range sims.length) :=
  sortIdx_perm sims _

theorem argsortAsc_pairwise (sims : List ℚ) :
    (argsortAsc sims).Pairwise (ordA sims) :=
  sortIdx_pairwise sims _ (List.pairwise_lt_range _)

theorem argsortAsc_reverse_pairwise (sims : List ℚ) :
    (argsortAsc sims).reverse.Pairwise (ordD sims) := by
  rw [List.pairwise_reverse]
  refine (argsortAsc_pairwise sims).imp ?_
  intro a b hab
  rcases hab with h | ⟨he, hlt⟩
  · exact Or.inl h
  · exact Or.inr ⟨he.symm, hlt⟩

theorem searchIdx_pairwise (sims : List ℚ) (n : ℕ) :
    (searchIdx sims n).Pairwise (ordD sims) :=
  ((argsortAsc_reverse_pairwise sims).sublist (List.take_sublist n _)).sublist
    (List.filter_sublist _)

theorem searchIdx_pos_lt (sims : List ℚ) (n : ℕ) :
    ∀ i ∈ searchIdx sims n, 0 < simAt sims i ∧ i < sims.length := by
  intro i hi
  unfold searchIdx at hi
  have h2 := List.of_mem_filter hi
  have h1 : i ∈ (argsortAsc sims).reverse.take n := List.mem_of_mem_filter hi
  have h3 : i ∈ (argsortAsc sims).reverse := List.take_subset n _ h1
  have h4 : i ∈ argsortAsc sims := List.mem_reverse.mp h3
  have h5 : i ∈ List.range sims.length := (argsortAsc_perm sims).mem_iff.mp h4
  exact ⟨of_decide_eq_true h2, List.mem_range.mp h5⟩

theorem searchIdx_length_le (sims : List ℚ) (n : ℕ) : (searchIdx sims n).length ≤ n := by
  unfold searchIdx
  refine le_trans (List.length_filter_le _ _) ?_
  rw [List.length_take]
  exact min_le_left _ _

theorem searchIdx_nodup (sims : List ℚ) (n : ℕ) : (searchIdx sims n).Nodup := by
  unfold searchIdx
  refine List.Nodup.sublist (List.filter_sublist _) ?_
  refine List.Nodup.sublist (List.take_sublist n _) ?_
  rw [List.nodup_reverse]
  exact ((argsortAsc_perm sims).nodup_iff).mpr (List.nodup_range _)

/-- The value `simAt` takes over a mapped similarity list. -/
theorem simAt_map (sim : PyStr → PyStr → ℚ) (query : PyStr) (docs : List Doc)
    (i : ℕ) (h : i < docs.length) :
    simAt (docs.map (fun d => sim query d.content)) i =
      sim query (docAt docs i).content := by
  unfold simAt docAt
  rw [List.getD_eq_getElem _ _ (by simpa using h), List.getD_eq_getElem _ _ h,
    List.getElem_map]

theorem searchDocs_subset (s : Store) (filt : Metadata) : searchDocs s filt ⊆ s.docs := by
  unfold searchDocs
  by_cases h : filt = []
  · rw [if_pos h]
    exact fun x hx => hx
  · rw [if_neg h]
    exact (List.filter_sublist _).subset

theorem docAt_mem (docs : List Doc) (i : ℕ) (h : i < docs.length) :
    docAt docs i ∈ docs := by
  unfold docAt
  rw [List.getD_eq_getElem _ _ h]
  exact List.getElem_mem _

/-! ## Claim C4: positive-similarity filtering and tie order -/

/-- C4 counterexample: two documents with equal similarity to the query come
back in REVERSE corpus insertion order (`doc_2` before `doc_1`), because the
code reverses an ascending argsort (`np.argsort(...)[::-1]`), which flips
ties — contradicting the claimed insertion-order tie-break. -/
theorem search_tie_order_counterexample :
    ((fun (_q _c : PyStr) => (1 : ℚ)) (pys "alpha") (pys "alpha beta") =
      (fun (_q _c : PyStr) => (1 : ℚ)) (pys "alpha") (pys "alpha gamma")) ∧
    (search (fun _ _ => 1)
        ⟨[⟨pys "doc_1", pys "alpha beta", []⟩, ⟨pys "doc_2", pys "alpha gamma", []⟩]⟩
        (pys "alpha") 5 []).map SearchResult.id = [pys "doc_2", pys "doc_1"] := by
  exact ⟨rfl, by decide⟩

/-- C4 (amended): `search` returns only documents with strictly positive
similarity (every reported distance is < 1), and its ranking order is strictly
descending similarity with ties in strictly DESCENDING corpus index — reverse
insertion order, not insertion order. -/
theorem search_positive_and_tie_order :
    (∀ (sim : PyStr → PyStr → ℚ) (s : Store) (query : PyStr) (n : ℕ)
      (filt : Metadata) (r : SearchResult),
      r ∈ search sim s query n filt → r.distance < 1) ∧
    (∀ (sims : List ℚ) (n : ℕ), (searchIdx sims n).Pairwise (ordD sims)) := by
  constructor
  · intro sim s query n filt r hr
    simp only [search] at hr
    split at hr
    · cases hr
    · rcases List.mem_map.mp hr with ⟨idx, hidx, rfl⟩
      have hpos := (searchIdx_pos_lt _ _ _ hidx).1
      dsimp only
      linarith
  · exact fun sims n => searchIdx_pairwise sims n

theorem search_positive_and_tie_order_witness :
    (⟨pys "alpha doc", [], 1 - 1, pys "doc_1"⟩ : SearchResult).distance < 1 ∧
    (searchIdx [1, 1] 5).Pairwise (ordD [1, 1]) :=
  ⟨search_positive_and_tie_order.1 (fun _ _ => 1)
      ⟨[⟨pys "doc_1", pys "alpha doc", []⟩]⟩ (pys "alpha") 5 [] _
      (List.mem_singleton.mpr rfl),
   search_positive_and_tie_order.2 [1, 1] 5⟩

/-! ## Claim C10: search result invariants -/

/-- C10: when the similarity function is bounded by 1 (as cosine similarity
is), every `search` result list has length at most `n_results`, is ordered by
non-decreasing distance (non-increasing similarity), and every reported
distance lies in [0, 1) — distance is 1 minus a strictly positive similarity
that is at most 1. -/
theorem search_invariants (sim : PyStr → PyStr → ℚ) (s : Store) (query : PyStr)
    (n : ℕ) (filt : Metadata)
    (hub : ∀ d ∈ s.docs, sim query d.content ≤ 1) :
    (search sim s query n filt).length ≤ n ∧
    (search sim s query n filt).Pairwise (fun a b => a.distance ≤ b.distance) ∧
    ∀ r ∈ search sim s query n filt, 0 ≤ r.distance ∧ r.distance < 1 := by
  simp only [search]
  split
  · exact ⟨Nat.zero_le n, List.Pairwise.nil, by intro r hr; cases hr⟩
  · refine ⟨?_, ?_, ?_⟩
    · rw [List.length_map]
      exact searchIdx_length_le _ n
    · refine List.Pairwise.map _ ?_ (searchIdx_pairwise _ n)
      intro i j hij
      dsimp only
      rcases hij with hlt | ⟨he, _⟩
      · linarith
      · rw [he]
    · intro r hr
      rcases List.mem_map.mp hr with ⟨idx, hidx, rfl⟩
      obtain ⟨hpos, hlt⟩ := searchIdx_pos_lt _ _ _ hidx
      rw [List.length_map] at hlt
      have hle := hub _ (searchDocs_subset s filt (docAt_mem _ _ hlt))
      rw [← simAt_map sim query _ idx hlt] at hle
      dsimp only
      constructor
      · linarith
      · linarith

theorem search_invariants_witness :
    (search (fun q c => if q = c then 1 else 0)
        ⟨[⟨pys "doc_1", pys "alpha beta", []⟩, ⟨pys "doc_2", pys "gamma", []⟩]⟩
        (pys "alpha beta") 5 []).length ≤ 5 ∧
    (search (fun q c => if q = c then 1 else 0)
        ⟨[⟨pys "doc_1", pys "alpha beta", []⟩, ⟨pys "doc_2", pys "gamma", []⟩]⟩
        (pys "alpha beta") 5 []).Pairwise (fun a b => a.distance ≤ b.distance) ∧
    ∀ r ∈ search (fun q c => if q = c then 1 else 0)
        ⟨[⟨pys "doc_1", pys "alpha beta", []⟩, ⟨pys "doc_2", pys "gamma", []⟩]⟩
        (pys "alpha beta") 5 [], 0 ≤ r.distance ∧ r.distance < 1 :=
  search_invariants (fun q c => if q = c then 1 else 0)
    ⟨[⟨pys "doc_1", pys "alpha beta", []⟩, ⟨pys "doc_2", pys "gamma", []⟩]⟩
    (pys "alpha beta") 5 []
    (by intro e he; dsimp only; split <;> norm_num)

/-! ## Claim C7: exact-content round trip -/

/-- Counting indices of a list that satisfy a predicate on the stored value
equals counting the values themselves. -/
theorem length_filter_range_getD (l : List ℚ) (p : ℚ → Bool) :
    ((List.range l.length).filter (fun i => p (l.getD i 0))).length =
      (l.filter p).length := by
  induction l using List.reverseRecOn with
  | nil => rfl
  | append_singleton l' x ih =>
    rw [List.length_append, List.length_singleton, List.range_succ, List.filter_append,
      List.filter_append, List.length_append, List.length_append]
    have h1 : (List.range l'.length).filter (fun i => p ((l' ++ [x]).getD i 0)) =
        (List.range l'.length).filter (fun i => p (l'.getD i 0)) := by
      refine List.filter_congr ?_
      intro i hi
      rw [List.getD_append _ _ _ _ (List.mem_range.mp hi)]
    have h2 : ([l'.length].filter (fun i => p ((l' ++ [x]).getD i 0))).length =
        ([x].filter p).length := by
      have hx : (l' ++ [x]).getD l'.length 0 = x := by
        rw [List.getD_eq_getElem _ _ (by simp)]
        simp
      simp only [List.filter_cons, List.filter_nil, hx]
      split <;> rfl
    rw [h1, h2, ih]

/-- C7: after `d` is in the corpus, a search whose query is exactly `d`'s
content returns `d` among the results with distance 0, and the top result has
distance 0.  The hypotheses are the cosine facts for an exact-content query —
self-similarity 1 and similarity bounded by 1 — plus the proviso that the
documents tied at similarity 1 (at least `d` itself) fit within `n_results`. -/
theorem search_roundtrip (sim : PyStr → PyStr → ℚ) (s : Store) (d : Doc) (n : ℕ)
    (hmem : d ∈ s.docs)
    (hself : sim d.content d.content = 1)
    (hub : ∀ e ∈ s.docs, sim d.content e.content ≤ 1)
    (hcount : (s.docs.filter (fun e => sim d.content e.content = 1)).length ≤ n) :
    (∃ r ∈ search sim s d.content n [], r.id = d.id ∧ r.distance = 0) ∧
    (∃ r0, (search sim s d.content n []).head? = some r0 ∧ r0.distance = 0) := by
  have hne : s.docs ≠ [] := List.ne_nil_of_mem hmem
  set f : Doc → ℚ := fun e => sim d.content e.content with hf
  set sims := s.docs.map f with hsims
  have hlen : sims.length = s.docs.length := List.length_map _ _
  obtain ⟨k, hk, hdk⟩ := List.getElem_of_mem hmem
  have hsimi : ∀ i (hi : i < s.docs.length), simAt sims i = f s.docs[i] := by
    intro i hi
    rw [hsims]
    unfold simAt
    rw [List.getD_eq_getElem _ _ (by simpa using hi), List.getElem_map]
  have hsimk : simAt sims k = 1 := by
    rw [hsimi k hk, hdk]
    exact hself
  have hub' : ∀ i, i < sims.length → simAt sims i ≤ 1 := by
    intro i hi
    rw [hlen] at hi
    rw [hsimi i hi]
    exact hub _ (List.getElem_mem _)
  set A := (argsortAsc sims).reverse with hA
  have hAperm : A.Perm (List.range sims.length) :=
    (List.reverse_perm _).trans (argsortAsc_perm sims)
  have hAnodup : A.Nodup := hAperm.nodup_iff.mpr (List.nodup_range _)
  have hApair : A.Pairwise (ordD sims) := argsortAsc_reverse_pairwise sims
  have hAlt : ∀ i ∈ A, i < sims.length := fun i hi =>
    List.mem_range.mp (hAperm.mem_iff.mp hi)
  have hkA : k ∈ A := hAperm.mem_iff.mpr (List.mem_range.mpr (hlen ▸ hk))
  obtain ⟨p, hp, hpk⟩ := List.getElem_of_mem hkA
  -- every element of the first p+1 positions of A has similarity exactly 1
  have hOnes : ∀ j (hjA : j < A.length), j < p + 1 → simAt sims A[j] = 1 := by
    intro j hjA hj
    rcases Nat.lt_succ_iff_lt_or_eq.mp hj with hjlt | rfl
    · have hrel := List.pairwise_iff_getElem.mp hApair j p (lt_trans hjlt hp) hp hjlt
      rw [hpk] at hrel
      have hle := hub' A[j] (hAlt _ (List.getElem_mem hjA))
      rcases hrel with hlt' | ⟨he, _⟩
      · rw [hsimk] at hlt'
        linarith
      · rw [he, hsimk]
    · rw [hpk]
      exact hsimk
  -- pigeonhole: the prefix injects into the indices of similarity-1 documents
  have hples : p + 1 ≤ (s.docs.filter (fun e => sim d.content e.content = 1)).length := by
    have hsub : (A.take (p + 1)) ⊆
        (List.range sims.length).filter (fun i => decide (simAt sims i = 1)) := by
      intro x hx
      obtain ⟨j, hj, hjx⟩ := List.getElem_of_mem hx
      have hjp : j < p + 1 := by
        have := hj
        rw [List.length_take] at this
        exact Nat.lt_of_lt_of_le this (min_le_left _ _)
      rw [List.getElem_take] at hjx
      subst hjx
      refine List.mem_filter.mpr ⟨List.mem_range.mpr (hAlt _ (List.getElem_mem _)), ?_⟩
      have hjA : j < A.length := by
        have hjken := hj
        rw [List.length_take] at hjken
        exact Nat.lt_of_lt_of_le hjken (min_le_right _ _)
      exact decide_eq_true (hOnes j hjA hjp)
    have hnd : (A.take (p + 1)).Nodup :=
      List.Nodup.sublist (List.take_sublist _ _) hAnodup
    have hlenle := (List.subperm_of_subset hnd hsub).length_le
    rw [List.length_take, min_eq_left (Nat.succ_le_of_lt hp)] at hlenle
    calc p + 1 ≤ ((List.range sims.length).filter
          (fun i => decide (simAt sims i = 1))).length := hlenle
      _ = (sims.filter (fun q => decide (q = 1))).length := by
          have := length_filter_range_getD sims (fun q => decide (q = 1))
          simpa [simAt] using this
      _ = (s.docs.filter (fun e => sim d.content e.content = 1)).length := by
          rw [hsims, List.filter_map, List.length_map]
          rfl
  have hpn : p < n := Nat.lt_of_lt_of_le (Nat.lt_succ_self p) (le_trans hples hcount)
  -- k survives the take and the positivity filter
  have hkTake : k ∈ A.take n := by
    have hplen : p < (A.take n).length := by
      rw [List.length_take]
      exact lt_min hpn hp
    have htk : (A.take n)[p] = k := by
      rw [List.getElem_take]
      exact hpk
    rw [← htk]
    exact List.getElem_mem hplen
  have hkIdx : k ∈ searchIdx sims n := by
    unfold searchIdx
    exact List.mem_filter.mpr ⟨hkTake, decide_eq_true (by rw [hsimk]; norm_num)⟩
  -- rewrite search into its mapped form
  have hres : search sim s d.content n [] = (searchIdx sims n).map (fun idx =>
      { content := (docAt s.docs idx).content
        metadata := (docAt s.docs idx).metadata
        distance := 1 - simAt sims idx
        id := (docAt s.docs idx).id }) := by
    simp only [search]
    rw [show searchDocs s [] = s.docs from rfl, if_neg hne]
  have hdocAtk : docAt s.docs k = d := by
    unfold docAt
    rw [List.getD_eq_getElem _ _ hk]
    exact hdk
  constructor
  · refine ⟨{ content := (docAt s.docs k).content
              metadata := (docAt s.docs k).metadata
              distance := 1 - simAt sims k
              id := (docAt s.docs k).id }, ?_, ?_, ?_⟩
    · rw [hres]
      exact List.mem_map.mpr ⟨k, hkIdx, rfl⟩
    · dsimp only
      rw [hdocAtk]
    · dsimp only
      rw [hsimk]
      norm_num
  · have hne' : searchIdx sims n ≠ [] := List.ne_nil_of_mem hkIdx
    obtain ⟨j0, rest, hcons⟩ := List.exists_cons_of_ne_nil hne'
    have hj0mem : j0 ∈ searchIdx sims n := by
      rw [hcons]
      exact List.mem_cons_self _ _
    have hj0lt := (searchIdx_pos_lt sims n j0 hj0mem).2
    have hj0ub := hub' j0 hj0lt
    have hj0ge : 1 ≤ simAt sims j0 := by
      have hkIdx' := hkIdx
      rw [hcons] at hkIdx'
      rcases List.mem_cons.mp hkIdx' with rfl | hkrest
      · rw [hsimk]
      · have hpair := searchIdx_pairwise sims n
        rw [hcons] at hpair
        have hrel := (List.pairwise_cons.mp hpair).1 k hkrest
        rcases hrel with hlt' | ⟨he, _⟩
        · rw [hsimk] at hlt'
          linarith
        · rw [he, hsimk]
    have hj0sim : simAt sims j0 = 1 := le_antisymm hj0ub hj0ge
    refine ⟨{ content := (docAt s.docs j0).content
              metadata := (docAt s.docs j0).metadata
              distance := 1 - simAt sims j0
              id := (docAt s.docs j0).id }, ?_, ?_⟩
    · rw [hres, hcons]
      rfl
    · dsimp only
      rw [hj0sim]
      norm_num

theorem search_roundtrip_witness :
    (∃ r ∈ search (fun q c => if q = c then 1 else 0)
        ⟨[⟨pys "doc_1", pys "older article", []⟩, ⟨pys "doc_2", pys "digital strategy for executives", []⟩]⟩
        (pys "digital strategy for executives") 5 [],
      r.id = pys "doc_2" ∧ r.distance = 0) ∧
    (∃ r0, (search (fun q c => if q = c then 1 else 0)
        ⟨[⟨pys "doc_1", pys "older article", []⟩, ⟨pys "doc_2", pys "digital strategy for executives", []⟩]⟩
        (pys "digital strategy for executives") 5 []).head? = some r0 ∧ r0.distance = 0) :=
  search_roundtrip (fun q c => if q = c then 1 else 0)
    ⟨[⟨pys "doc_1", pys "older article", []⟩, ⟨pys "doc_2", pys "digital strategy for executives", []⟩]⟩
    ⟨pys "doc_2", pys "digital strategy for executives", []⟩ 5
    (by decide)
    (by simp)
    (by
      intro e he
      dsimp only
      split <;> norm_num)
    (by decide)

end ContentGen
